import Mathlib

set_option maxHeartbeats 1000000

/-!
Verification development for the `smarty` linear-model library
(`smarty/models/base.py`, `smarty/models/linear.py`, `datasets/utils.py`).

Numeric matrices are embedded as `List (List ℚ)` (rows of samples) and single
target / prediction columns as `List ℚ`; exact rational arithmetic stands for
numpy float arithmetic.  The logistic solver additionally needs `Real.exp`, so
its embedding lives over `ℝ`.  Fallible Python code (assertions, attribute
errors) is embedded with `Except`.
-/

/-- A mini-batch as produced by dataset iteration: the pair `(X_b, y_b)` of a
feature matrix (list of rows) and a single target column. -/
abbrev Batch := List (List ℚ) × List ℚ

/-- Dot product of a sample row with the coefficient column, the scalar
`row · coefs` inside `X_b.dot(self.root.coefs_)`. -/
def dotQ (xs ys : List ℚ) : ℚ := (List.zipWith (fun a b => a * b) xs ys).sum

/-- Embedding of `X_b.dot(coefs) + bias` (numpy broadcasts the `(1,1)` bias
over the resulting column): the raw linear prediction for each row. -/
def predictWith (c : List ℚ) (b : ℚ) (X : List (List ℚ)) : List ℚ :=
  X.map (fun row => dotQ row c + b)

/-- Elementwise column subtraction, `y_pred - y_b`. -/
def vecSub (xs ys : List ℚ) : List ℚ := List.zipWith (fun a b => a - b) xs ys

/-- Embedding of `X_b.T.dot(error)`: row `j` of the transpose (column `j` of
`X_b`) dotted with the error column. -/
def xT_dot (X : List (List ℚ)) (e : List ℚ) : List ℚ :=
  X.transpose.map (fun col => dotQ col e)

/-- Embedding of `np.mean` on a list of per-batch losses (`sum / length`;
numpy would yield NaN on an empty list, which arises only when a dataset
reports zero steps per epoch). -/
def npMean (l : List ℚ) : ℚ := l.sum / (l.length : ℚ)

/-- The shared mutable state living in the model (`self.root` from the
solver's point of view): the fields of `BaseModel` / the model subclasses that
`MiniBatchGradientDescent` and `CoefSolver` read and write.  `coefs_` and
`bias_` are `Option`s because the constructors set them to Python `None`;
`fit` populates them before any gradient step, so the `Option.getD` defaults
used by the solver functions below are never reached from the entry points
embedded here.  `m_` does not exist as an attribute before `fit`; the fresh
value `0` stands for "absent". -/
structure Root where
  fitted : Bool
  coefs_ : Option (List ℚ)
  bias_ : Option ℚ
  costs_ : List ℚ
  m_ : ℕ
  learning_rate_ : ℚ
  loss : List ℚ → List ℚ → ℚ

/-- Modelled from the spec (§6): the external `DataSet` collaborator.  It
exposes `len(ds)`, the feature-column count `len(ds.data_classes_)`,
`ds.steps_per_epoch_()`, and a single iterator (`src = iter(ds)` is created
once before the epoch loop) whose successive `next` calls are embedded as a
stream indexed by the number of `next` calls made so far. -/
structure DataSet where
  len : ℕ
  nFeatures : ℕ
  steps : ℕ
  stream : ℕ → Batch

/-- Embedding of `CoefSolver.gradient_step` (identical to
`MiniBatchGradientDescent.gradient_step`): `y_pred = self.predict(X_b)`;
`const = self.root.learning_rate_ / self.root.m_`; `error = y_pred - y_b`;
`coefs_ -= const * X_b.T.dot(error)`; `bias_ -= const * np.sum(error)`;
returns the mutated root together with `y_pred`.  `pred` models the
dynamically dispatched `self.predict` (overridden by the logistic and
perceptron solvers). -/
def gradient_step (pred : Root → List (List ℚ) → List ℚ) (st : Root)
    (Xb : List (List ℚ)) (yb : List ℚ) : Root × List ℚ :=
  let y_pred := pred st Xb
  let c := st.coefs_.getD []
  let b := st.bias_.getD 0
  let const := st.learning_rate_ / (st.m_ : ℚ)
  let error := vecSub y_pred yb
  ({ st with
      coefs_ := some (List.zipWith (fun ci gi => ci - const * gi) c (xT_dot Xb error)),
      bias_ := some (b - const * error.sum) },
   y_pred)

/-- Embedding of the per-epoch batch loop inside
`MiniBatchGradientDescent.fit`: runs `k` steps, each taking the next batch
from the stream, performing a gradient step and recording
`self.root.loss(y_b, y_pred)`.  Returns the resulting root, the epoch's loss
list in order, and the advanced stream position. -/
def run_batches (pred : Root → List (List ℚ) → List ℚ) (stream : ℕ → Batch) :
    ℕ → Root → ℕ → Root × List ℚ × ℕ
  | 0, st, t => (st, [], t)
  | k + 1, st, t =>
    let Xy := stream t
    let r1 := gradient_step pred st Xy.1 Xy.2
    let l := r1.1.loss Xy.2 r1.2
    let r2 := run_batches pred stream k r1.1 (t + 1)
    (r2.1, l :: r2.2.1, r2.2.2)

/-- Embedding of the epoch loop of `MiniBatchGradientDescent.fit`: per epoch,
run `ds.steps_per_epoch_()` batches, append `np.mean(losses)` to
`self.root.costs_`, then consult `handle_callbacks` and stop when it returns
false.  `cb` is modelled from the spec (§4.3): `handle_callbacks` lives in the
absent `smarty/models/utils.py`; per the spec it inspects the model and the
epoch's loss list and returns whether training should continue (always true
when no callbacks are configured).  Progress printing is a side effect with no
bearing on state and is omitted. -/
def fit_loop (pred : Root → List (List ℚ) → List ℚ) (ds : DataSet)
    (cb : Root → List ℚ → Bool) : ℕ → Root → ℕ → Root
  | 0, st, _ => st
  | e + 1, st, t =>
    let r := run_batches pred ds.stream ds.steps st t
    let st2 := { r.1 with costs_ := r.1.costs_ ++ [npMean r.2.1] }
    if cb st2 r.2.1 then fit_loop pred ds cb e st2 r.2.2 else st2

/-- State initialisation at the start of `fit`: `self.root.m_ = len(ds)`;
`self.root.coefs_ = np.zeros((len(ds.data_classes_), 1))`;
`self.root.bias_ = np.zeros((1, 1))`.  `CoefSolver.fit` performs these three
assignments and then delegates to `MiniBatchGradientDescent.fit`, which
performs the same three assignments again before the epoch loop. -/
def coefSolver_fit_init (ds : DataSet) (st : Root) : Root :=
  { st with
      m_ := ds.len,
      coefs_ := some (List.replicate ds.nFeatures 0),
      bias_ := some 0 }

/-- Embedding of `CoefSolver.fit` / `MiniBatchGradientDescent.fit`:
initialisation followed by the epoch loop, with the dataset iterator starting
at position 0. -/
def coefSolver_fit (pred : Root → List (List ℚ) → List ℚ) (ds : DataSet)
    (epochs : ℕ) (cb : Root → List ℚ → Bool) (st : Root) : Root :=
  fit_loop pred ds cb epochs (coefSolver_fit_init ds st) 0

/-- Embedding of `BaseModel.fit`: delegate to `self.solver_.fit(...)`, then
set `self.fitted = True`. -/
def model_fit (pred : Root → List (List ℚ) → List ℚ) (ds : DataSet)
    (epochs : ℕ) (cb : Root → List ℚ → Bool) (st : Root) : Root :=
  { coefSolver_fit pred ds epochs cb st with fitted := true }

/-- Embedding of `CoefSolver.predict` (= `LinearSgdSolver.predict` =
`MiniBatchGradientDescent.predict`): `x_b.dot(self.root.coefs_) +
self.root.bias_`. -/
def linearSgdSolver_predict (st : Root) (X : List (List ℚ)) : List ℚ :=
  predictWith (st.coefs_.getD []) (st.bias_.getD 0) X

/-- Modelled from the spec (§4.1 step 2, quoted by the claim): the gradient
update with the divisor `m` "= total dataset size (fixed at fit start, not
batch size)" passed as an explicit fixed parameter instead of being re-read
from the mutable root state at each step; prediction is
`y_pred = X_b · coefficients + bias`. -/
def spec_gradient_step (m : ℕ) (st : Root) (Xb : List (List ℚ)) (yb : List ℚ) :
    Root × List ℚ :=
  let y_pred := predictWith (st.coefs_.getD []) (st.bias_.getD 0) Xb
  let const := st.learning_rate_ / (m : ℚ)
  let error := vecSub y_pred yb
  ({ st with
      coefs_ := some (List.zipWith (fun ci gi => ci - const * gi) (st.coefs_.getD []) (xT_dot Xb error)),
      bias_ := some (st.bias_.getD 0 - const * error.sum) },
   y_pred)

/-- Modelled from the spec: the per-epoch batch loop using the fixed divisor
`m` for every gradient step. -/
def spec_run_batches (m : ℕ) (stream : ℕ → Batch) :
    ℕ → Root → ℕ → Root × List ℚ × ℕ
  | 0, st, t => (st, [], t)
  | k + 1, st, t =>
    let Xy := stream t
    let r1 := spec_gradient_step m st Xy.1 Xy.2
    let l := r1.1.loss Xy.2 r1.2
    let r2 := spec_run_batches m stream k r1.1 (t + 1)
    (r2.1, l :: r2.2.1, r2.2.2)

/-- Modelled from the spec: the epoch loop (steps 1-4 of §4.1) with the fixed
divisor `m`. -/
def spec_fit_loop (m : ℕ) (stream : ℕ → Batch) (steps : ℕ)
    (cb : Root → List ℚ → Bool) : ℕ → Root → ℕ → Root
  | 0, st, _ => st
  | e + 1, st, t =>
    let r := spec_run_batches m stream steps st t
    let st2 := { r.1 with costs_ := r.1.costs_ ++ [npMean r.2.1] }
    if cb st2 r.2.1 then spec_fit_loop m stream steps cb e st2 r.2.2 else st2

/-- Modelled from the spec: fit with `m` captured once, at the start, as the
total dataset length. -/
def spec_coefSolver_fit (ds : DataSet) (epochs : ℕ) (cb : Root → List ℚ → Bool)
    (st : Root) : Root :=
  spec_fit_loop ds.len ds.stream ds.steps cb epochs (coefSolver_fit_init ds st) 0

/-- Companion to `fit_loop` computing the list of values appended to
`costs_`: one entry per completed epoch, namely `np.mean` of that epoch's
per-batch loss list, with the recursion stopping exactly where the callback
stops the epoch loop. -/
def fit_loop_means (pred : Root → List (List ℚ) → List ℚ) (ds : DataSet)
    (cb : Root → List ℚ → Bool) : ℕ → Root → ℕ → List ℚ
  | 0, _, _ => []
  | e + 1, st, t =>
    let r := run_batches pred ds.stream ds.steps st t
    let st2 := { r.1 with costs_ := r.1.costs_ ++ [npMean r.2.1] }
    npMean r.2.1 :: (if cb st2 r.2.1 then fit_loop_means pred ds cb e st2 r.2.2 else [])

/-- The model state produced by the constructor chain
`BaseModel.__init__` (`fitted = False`) and `MiniBatchGradientDescent.__init__`
(`costs_ = []`, `bias_ = None`, `coefs_ = None`), with the loss function and
learning rate stored by the concrete model's `__init__`. -/
def freshRoot (loss : List ℚ → List ℚ → ℚ) (lr : ℚ) : Root :=
  { fitted := false
    coefs_ := none
    bias_ := none
    costs_ := []
    m_ := 0
    learning_rate_ := lr
    loss := loss }

/-- Modelled from the spec (§7): the error raised by
`smarty.errors.assertion(self.fitted, "Call .fit() first.")` in
`BaseModel.predict` when the model is not fitted (`smarty/errors.py` is not
part of the sources; the spec names this failure `NotFittedError`). -/
inductive ModelError where
  | notFitted
deriving DecidableEq

/-- Embedding of `BaseModel.predict`: assert `self.fitted`, then iterate the
dataset in prediction mode (targets already stripped; `prepare_ds` and the
target-dropping branch belong to the dataset collaborator), apply
`self.solver_.predict` to every feature batch and concatenate the per-batch
predictions in iteration order (`np.r_`).  `sp` is the solver's dynamically
dispatched predict. -/
def model_predict (sp : Root → List (List ℚ) → List ℚ) (st : Root)
    (batches : List (List (List ℚ))) : Except ModelError (List ℚ) :=
  if st.fitted then Except.ok ((batches.map (sp st)).flatten)
  else Except.error ModelError.notFitted

/-- Concrete dataset used to exercise the training loop: two samples, one
feature, one batch per epoch, every batch being `(X_b, y_b) = ([[0],[0]],
[0,0])`. -/
def dsEx : DataSet :=
  { len := 2, nFeatures := 1, steps := 1, stream := fun _ => ([[0], [0]], [0, 0]) }

/-- Callback handler with no callbacks configured: always continue (spec
§4.3 default behaviour). -/
def cbTrue : Root → List ℚ → Bool := fun _ _ => true

/-- A freshly constructed gradient-descent model with a constant-zero loss
function and learning rate 1/100. -/
def freshEx : Root := freshRoot (fun _ _ => 0) (1 / 100)

/-- Values stored in the parameter dict exchanged by
`get_params` / `set_params` (arrays, lists, floats and the loss function). -/
inductive PVal where
  | num (q : ℚ)
  | vecOpt (v : Option (List ℚ))
  | scalarOpt (b : Option ℚ)
  | qlist (l : List ℚ)
  | func (f : List ℚ → List ℚ → ℚ)

/-- A Python dict from parameter name to value, as an association list. -/
abbrev ParamDict := List (String × PVal)

/-- Embedding of `MiniBatchGradientDescent.get_params`: the dict literal it
returns. -/
def mbgd_get_params (st : Root) : ParamDict :=
  [("root__costs_", PVal.qlist st.costs_),
   ("root__bias_", PVal.scalarOpt st.bias_),
   ("root__coefs_", PVal.vecOpt st.coefs_),
   ("root__learning_rate_", PVal.num st.learning_rate_),
   ("root__loss", PVal.func st.loss)]

/-- Value of the Python expression `d.update(u)`: `dict.update` mutates `d`
in place and always returns `None`; when its result is what a function
returns, the mutated dict is discarded and the caller receives `None`. -/
def pyDict_update_return (_d _u : ParamDict) : Option ParamDict := none

/-- Embedding of `CoefSolver.get_params`:
`kw = super().get_params(); return kw.update({...})` — the value returned is
the result of `dict.update`, i.e. `None`. -/
def coefSolver_get_params (st : Root) : Option ParamDict :=
  pyDict_update_return (mbgd_get_params st)
    [("root__bias_", PVal.scalarOpt st.bias_),
     ("root__coefs_", PVal.vecOpt st.coefs_)]

/-- Python dict item assignment `d[k] = v`: replace the binding if the key is
present, otherwise append it. -/
def dictSet (d : ParamDict) (k : String) (v : PVal) : ParamDict :=
  if d.any (fun p => p.1 = k) then d.map (fun p => if p.1 = k then (k, v) else p)
  else d ++ [(k, v)]

/-- Embedding of `BaseSolver.set_params` acting on the model's and the
solver's attribute dicts: keys starting with `root__` are stripped of the
marker and written into the model (`self.root.__dict__`), the rest into the
solver (`self.__dict__`). -/
def baseSolver_set_params (params : ParamDict) (rootD solverD : ParamDict) :
    ParamDict × ParamDict :=
  params.foldl
    (fun acc kv =>
      if kv.1.startsWith "root__" then (dictSet acc.1 (kv.1.drop 6) kv.2, acc.2)
      else (acc.1, dictSet acc.2 kv.1 kv.2))
    (rootD, solverD)

/-- The cloning round trip the spec describes: feed `get_params()` of a
fitted model into `set_params` of a fresh one.  In the source the bag is
`None`, so CPython raises `AttributeError: 'NoneType' object has no attribute
'items'` inside `set_params`. -/
def clone_via_params (orig : Root) : Except String (ParamDict × ParamDict) :=
  match coefSolver_get_params orig with
  | none => Except.error "AttributeError: NoneType object has no attribute items"
  | some p => Except.ok (baseSolver_set_params p [] [])

/-- A concrete fitted gradient-descent model state (coefficient 2, bias 1,
one completed epoch). -/
def fittedRootEx : Root :=
  { fitted := true
    coefs_ := some [2]
    bias_ := some 1
    costs_ := [0]
    m_ := 2
    learning_rate_ := 1 / 10000
    loss := fun _ _ => 0 }

/-- Embedding of `smarty.models.linear.LINEAR_SOLVERS`. -/
def LINEAR_SOLVERS : List String := ["mbgd", "norm_eq"]

/-- The state of a `LinearRegression` model right after construction: the
fitted flag from `BaseModel.__init__`, which solver class was instantiated,
the stored loss function (identified by name) and learning rate, and the
`coefs_` / `bias_` attributes that both solver constructors set to `None`. -/
structure LRModel where
  fitted : Bool
  solverIsSgd : Bool
  lossName : String
  learning_rate_ : ℚ
  coefs_ : Option (List ℚ)
  bias_ : Option ℚ

/-- Embedding of `LinearRegression.__init__`: assert the solver name is one
of `LINEAR_SOLVERS` (raising `"Solver unrecognised, ..."` otherwise), then
instantiate `LinearSgdSolver` for `"mbgd"` and `NormalEqSolver` for anything
else, and store the loss and learning rate. -/
def linearRegression_init (loss solver : String) (learning_rate : ℚ) :
    Except String LRModel :=
  if solver ∈ LINEAR_SOLVERS then
    Except.ok
      { fitted := false
        solverIsSgd := solver == "mbgd"
        lossName := loss
        learning_rate_ := learning_rate
        coefs_ := none
        bias_ := none }
  else Except.error "Solver unrecognised, see models.linear.LINEAR_SOLVERS to see defined one."

/-- Embedding of `LinearRegression.clean_copy`: construct a new model with
the same loss and learning rate and with solver name
`"sgd" if isinstance(self.solver_, LinearSgdSolver) else "norm_eq"`. -/
def linearRegression_clean_copy (m : LRModel) : Except String LRModel :=
  linearRegression_init m.lossName (if m.solverIsSgd then "sgd" else "norm_eq")
    m.learning_rate_

/-- Dot product over `ℝ` (the logistic solver needs `Real.exp`). -/
noncomputable def dotR (xs ys : List ℝ) : ℝ := (List.zipWith (fun a b => a * b) xs ys).sum

/-- Embedding of numpy's `.astype("i")` on a float value: C-style cast to a
32-bit integer truncates toward zero (the finite predictions arising here are
far below the overflow bound). -/
noncomputable def astype_int (v : ℝ) : ℤ := if 0 ≤ v then ⌊v⌋ else -⌊-v⌋

/-- Embedding of `LogisticSgdSolver.predict`:
`y_pred = x_b.dot(coefs_) + bias_; return (1.0 / (1.0 + np.exp(-y_pred))).astype("i")`,
in exact real arithmetic. -/
noncomputable def logisticSgdSolver_predict (coefs : List ℝ) (bias : ℝ)
    (X : List (List ℝ)) : List ℤ :=
  X.map (fun row => astype_int (1 / (1 + Real.exp (-(dotR row coefs + bias)))))

/-- Modelled from the spec (the claim's wording): the claimed behaviour
`round(1 / (1 + exp(-raw)))` "yielding label 1 exactly when the raw score is
nonnegative and 0 otherwise". -/
noncomputable def claimed_logistic_predict (coefs : List ℝ) (bias : ℝ)
    (X : List (List ℝ)) : List ℤ :=
  X.map (fun row => if 0 ≤ dotR row coefs + bias then 1 else 0)

/-- The numpy dtype attributes referenced by `smarty/models/linear.py`. -/
inductive NpDtype where
  | uint8

/-- Attribute lookup on the numpy module for dtype names: `np.uint8` exists;
the identifier `np.unit8` written in `PerceptronSolver.predict` does not, so
looking it up raises `AttributeError`. -/
def np_attr (name : String) : Option NpDtype :=
  if name == "uint8" then some NpDtype.uint8 else none

/-- Embedding of `PerceptronSolver.predict`: compute the raw scores, then
build the output array with `np.zeros(y_pred.shape, dtype=np.unit8)` — whose
dtype argument evaluates `np.unit8` and therefore raises `AttributeError` —
and finally set the entries with raw score strictly above the threshold
to 1. -/
def perceptronSolver_predict (coefs : List ℚ) (bias threshold : ℚ)
    (X : List (List ℚ)) : Except String (List ℚ) :=
  let y_pred := predictWith coefs bias X
  match np_attr "unit8" with
  | none => Except.error "AttributeError: module numpy has no attribute unit8"
  | some _ => Except.ok (y_pred.map (fun v => if threshold < v then 1 else 0))

/-- Sorted insertion of a value into a sorted duplicate-free list, keeping it
duplicate-free. -/
def insUnique (x : ℤ) : List ℤ → List ℤ
  | [] => [x]
  | y :: ys => if x < y then x :: y :: ys else if x = y then y :: ys else y :: insUnique x ys

/-- Embedding of `np.unique` on the flattened target column: the sorted list
of distinct values. -/
def np_unique (l : List ℤ) : List ℤ := l.foldr insUnique []

/-- Embedding of the target validation at the top of `LogisticClassifier.fit`
and `Perceptron.fit` (the two methods are verbatim identical):
`assertion(target.shape[1] == 1, "Binary classifier can have only one class")`
then `assertion(list(np.unique(target)) == [0, 1], "Target class must consist
only of 0 and 1")`; only if both hold does `fit` proceed.  The target matrix
is embedded as its list of rows (integer labels). -/
def binary_fit_gate (target : List (List ℤ)) : Except String Unit :=
  if ¬(∀ row ∈ target, row.length = 1) then
    Except.error "Binary classifier can have only one class"
  else if ¬(np_unique target.flatten = [0, 1]) then
    Except.error "Target class must consist only of 0 and 1"
  else Except.ok ()

/-- Fuel-driven embedding of the `while s + fold_size < len(ds)` loop of
`cross_val_split`, phrased on the suffix of the index list still to be cut
(`s + fold_size < len(ds)` is `fold_size < length-of-suffix`): while the
condition holds, cut off a fold of `fold_size` indices.  Returns the folds in
order together with the remaining suffix.  The fuel is the length of the
list, which suffices because every iteration consumes `fold_size ≥ 1`
elements; the `0 < f` guard mirrors the fact that the source loop is only
reached with `fold_size ≥ 1` (enforced by the `len(ds) > folds` assertion —
with `fold_size = 0` the Python loop would not terminate). -/
def cvs_go_fuel (f : ℕ) : ℕ → List ℕ → List (List ℕ) × List ℕ
  | 0, l => ([], l)
  | fuel + 1, l =>
    if f < l.length ∧ 0 < f then
      (l.take f :: (cvs_go_fuel f fuel (l.drop f)).1, (cvs_go_fuel f fuel (l.drop f)).2)
    else ([], l)

/-- The fold-cutting loop of `cross_val_split` run on a full index list. -/
def cvs_go (f : ℕ) (l : List ℕ) : List (List ℕ) × List ℕ := cvs_go_fuel f l.length l

/-- Embedding of `datasets.utils.cross_val_split` on a dataset of `n` items,
returning the index partitions (each split is built from a slice of the index
array).  The two entry assertions are `folds >= 2` and `len(ds) > folds`;
`fold_size = len(ds) // folds`; after the loop, the remainder slice
`indeces[s:]` is appended when `drop_reminder` is unset and `s != len(ds)`.
The default shuffle applies a seeded permutation to the index array before
slicing (external `np.random`); it is embedded here with the identity
permutation (`shuffle=False`), which leaves fold count, fold sizes,
disjointness and coverage unchanged. -/
def cross_val_split (n folds : ℕ) (drop_reminder : Bool) :
    Except String (List (List ℕ)) :=
  if ¬(2 ≤ folds) then Except.error "Minimum number of folds is 2."
  else if ¬(folds < n) then Except.error "Number of folds exceeds length of dataset"
  else
    let f := n / folds
    let chunks := (cvs_go f (List.range n)).1
    let rest := (cvs_go f (List.range n)).2
    if drop_reminder = false ∧ rest.length ≠ 0 then Except.ok (chunks ++ [rest])
    else Except.ok chunks

/-- A gradient step never writes `m_`. -/
theorem gradient_step_m (pred : Root → List (List ℚ) → List ℚ) (st : Root)
    (Xb : List (List ℚ)) (yb : List ℚ) :
    (gradient_step pred st Xb yb).1.m_ = st.m_ := rfl

/-- A gradient step never writes `costs_`. -/
theorem gradient_step_costs (pred : Root → List (List ℚ) → List ℚ) (st : Root)
    (Xb : List (List ℚ)) (yb : List ℚ) :
    (gradient_step pred st Xb yb).1.costs_ = st.costs_ := rfl

/-- The batch loop never writes `m_`. -/
theorem run_batches_m (pred : Root → List (List ℚ) → List ℚ) (stream : ℕ → Batch) :
    ∀ (k : ℕ) (st : Root) (t : ℕ), (run_batches pred stream k st t).1.m_ = st.m_ := by
  intro k
  induction k with
  | zero => intro st t; rfl
  | succ k ih =>
    intro st t
    exact (ih (gradient_step pred st (stream t).1 (stream t).2).1 (t + 1)).trans rfl

/-- The batch loop never writes `costs_`. -/
theorem run_batches_costs (pred : Root → List (List ℚ) → List ℚ) (stream : ℕ → Batch) :
    ∀ (k : ℕ) (st : Root) (t : ℕ), (run_batches pred stream k st t).1.costs_ = st.costs_ := by
  intro k
  induction k with
  | zero => intro st t; rfl
  | succ k ih =>
    intro st t
    exact (ih (gradient_step pred st (stream t).1 (stream t).2).1 (t + 1)).trans rfl

/-- The epoch loop never writes `m_`. -/
theorem fit_loop_m (pred : Root → List (List ℚ) → List ℚ) (ds : DataSet)
    (cb : Root → List ℚ → Bool) :
    ∀ (E : ℕ) (st : Root) (t : ℕ), (fit_loop pred ds cb E st t).m_ = st.m_ := by
  intro E
  induction E with
  | zero => intro st t; rfl
  | succ E ih =>
    intro st t
    simp only [fit_loop]
    split
    · exact (ih _ _).trans (run_batches_m pred ds.stream ds.steps st t)
    · exact run_batches_m pred ds.stream ds.steps st t

/-- The source gradient step with the linear predict equals the
spec-modelled gradient step at `m = st.m_`. -/
theorem gradient_step_spec (st : Root) (Xb : List (List ℚ)) (yb : List ℚ) :
    gradient_step linearSgdSolver_predict st Xb yb = spec_gradient_step st.m_ st Xb yb := rfl

/-- The source batch loop agrees with the spec-modelled batch loop whenever
`m_` holds the fixed divisor `m`. -/
theorem run_batches_spec (stream : ℕ → Batch) :
    ∀ (k : ℕ) (st : Root) (t : ℕ) (m : ℕ), st.m_ = m →
      run_batches linearSgdSolver_predict stream k st t = spec_run_batches m stream k st t := by
  intro k
  induction k with
  | zero => intro st t m _; rfl
  | succ k ih =>
    intro st t m h
    have hg : gradient_step linearSgdSolver_predict st (stream t).1 (stream t).2
        = spec_gradient_step m st (stream t).1 (stream t).2 := by
      rw [← h]; exact gradient_step_spec st _ _
    have h' : (spec_gradient_step m st (stream t).1 (stream t).2).1.m_ = m := h
    simp only [run_batches, spec_run_batches]
    rw [hg, ih _ _ _ h']

/-- The source epoch loop agrees with the spec-modelled epoch loop whenever
`m_` holds the dataset length. -/
theorem fit_loop_spec (ds : DataSet) (cb : Root → List ℚ → Bool) :
    ∀ (E : ℕ) (st : Root) (t : ℕ), st.m_ = ds.len →
      fit_loop linearSgdSolver_predict ds cb E st t
        = spec_fit_loop ds.len ds.stream ds.steps cb E st t := by
  intro E
  induction E with
  | zero => intro st t _; rfl
  | succ E ih =>
    intro st t h
    have hr := run_batches_spec ds.stream ds.steps st t ds.len h
    have hm : (spec_run_batches ds.len ds.stream ds.steps st t).1.m_ = ds.len := by
      rw [← hr]; exact (run_batches_m linearSgdSolver_predict ds.stream ds.steps st t).trans h
    simp only [fit_loop, spec_fit_loop]
    rw [hr]
    split
    · exact ih _ _ hm
    · rfl

/-- C1: in the mini-batch gradient-descent solver, every batch processed
during `fit` receives exactly the update `coefs_ -= (learning_rate_ / m) *
X_b.T.dot(y_pred - y_b)`, `bias_ -= (learning_rate_ / m) * sum(y_pred - y_b)`
with `m` the total dataset length captured once at the start of `fit`: the
whole training run equals the spec-modelled run in which `m` is a fixed
parameter set to `len(ds)`, and the `m_` field still holds `len(ds)` when
`fit` returns. -/
theorem C1_gradient_updates_use_fixed_dataset_length (ds : DataSet) (E : ℕ)
    (cb : Root → List ℚ → Bool) (st : Root) :
    coefSolver_fit linearSgdSolver_predict ds E cb st = spec_coefSolver_fit ds E cb st ∧
    (coefSolver_fit linearSgdSolver_predict ds E cb st).m_ = ds.len := by
  constructor
  · exact fit_loop_spec ds cb E (coefSolver_fit_init ds st) 0 rfl
  · exact fit_loop_m linearSgdSolver_predict ds cb E (coefSolver_fit_init ds st) 0

/-- The epoch loop appends exactly the entries collected by
`fit_loop_means` to `costs_`. -/
theorem fit_loop_costs (pred : Root → List (List ℚ) → List ℚ) (ds : DataSet)
    (cb : Root → List ℚ → Bool) :
    ∀ (E : ℕ) (st : Root) (t : ℕ),
      (fit_loop pred ds cb E st t).costs_
        = st.costs_ ++ fit_loop_means pred ds cb E st t := by
  intro E
  induction E with
  | zero => intro st t; exact (List.append_nil _).symm
  | succ E ih =>
    intro st t
    simp only [fit_loop, fit_loop_means]
    have hc := run_batches_costs pred ds.stream ds.steps st t
    split
    case isTrue h =>
      rw [ih]
      show (run_batches pred ds.stream ds.steps st t).1.costs_
          ++ [npMean (run_batches pred ds.stream ds.steps st t).2.1] ++ _ = _
      rw [hc, List.append_assoc]
      rfl
    case isFalse h =>
      show (run_batches pred ds.stream ds.steps st t).1.costs_
          ++ [npMean (run_batches pred ds.stream ds.steps st t).2.1] = _
      rw [hc]

/-- At most one cost entry is produced per requested epoch. -/
theorem fit_loop_means_length_le (pred : Root → List (List ℚ) → List ℚ)
    (ds : DataSet) (cb : Root → List ℚ → Bool) :
    ∀ (E : ℕ) (st : Root) (t : ℕ),
      (fit_loop_means pred ds cb E st t).length ≤ E := by
  intro E
  induction E with
  | zero => intro st t; exact Nat.le_refl 0
  | succ E ih =>
    intro st t
    simp only [fit_loop_means]
    split
    · exact Nat.succ_le_succ (ih _ _)
    · simp

/-- When the callback handler always signals "continue", exactly one cost
entry is produced per requested epoch. -/
theorem fit_loop_means_length_eq (pred : Root → List (List ℚ) → List ℚ)
    (ds : DataSet) (cb : Root → List ℚ → Bool) (hcb : ∀ r l, cb r l = true) :
    ∀ (E : ℕ) (st : Root) (t : ℕ),
      (fit_loop_means pred ds cb E st t).length = E := by
  intro E
  induction E with
  | zero => intro st t; rfl
  | succ E ih =>
    intro st t
    simp only [fit_loop_means]
    rw [if_pos (hcb _ _)]
    simp [ih]

/-- C2 (amended): a run of the mini-batch gradient-descent `fit` appends to
the cost history exactly one entry per fully completed epoch — the mean of
that epoch's per-batch losses, as collected by `fit_loop_means` — so the
history grows by the number of completed epochs: at most `E`, and exactly `E`
when no callback signals stop.  The length equals the number of completed
epochs of this run only when the history was empty beforehand (as on a
freshly constructed model): `fit` never resets `costs_`, so re-fitting
accumulates entries across runs. -/
theorem C2_cost_history_grows_by_completed_epochs
    (pred : Root → List (List ℚ) → List ℚ) (ds : DataSet) (E : ℕ)
    (cb : Root → List ℚ → Bool) (st : Root) :
    (coefSolver_fit pred ds E cb st).costs_
      = st.costs_ ++ fit_loop_means pred ds cb E (coefSolver_fit_init ds st) 0 ∧
    (fit_loop_means pred ds cb E (coefSolver_fit_init ds st) 0).length ≤ E ∧
    ((∀ r l, cb r l = true) →
      (fit_loop_means pred ds cb E (coefSolver_fit_init ds st) 0).length = E) := by
  refine ⟨?_, ?_, ?_⟩
  · exact fit_loop_costs pred ds cb E (coefSolver_fit_init ds st) 0
  · exact fit_loop_means_length_le pred ds cb E (coefSolver_fit_init ds st) 0
  · intro hcb
    exact fit_loop_means_length_eq pred ds cb hcb E (coefSolver_fit_init ds st) 0

/-- Witness for C2: on a concrete fresh model, dataset and always-continue
callback with `E = 2`, the hypotheses hold and the amended claim yields a
history of exactly 2 entries. -/
theorem C2_cost_history_witness :
    (∀ r l, cbTrue r l = true) ∧
    (coefSolver_fit linearSgdSolver_predict dsEx 2 cbTrue freshEx).costs_
      = freshEx.costs_
        ++ fit_loop_means linearSgdSolver_predict dsEx cbTrue 2
            (coefSolver_fit_init dsEx freshEx) 0 ∧
    (fit_loop_means linearSgdSolver_predict dsEx cbTrue 2
        (coefSolver_fit_init dsEx freshEx) 0).length = 2 :=
  ⟨fun _ _ => rfl,
   (C2_cost_history_grows_by_completed_epochs linearSgdSolver_predict dsEx 2 cbTrue freshEx).1,
   (C2_cost_history_grows_by_completed_epochs linearSgdSolver_predict dsEx 2 cbTrue freshEx).2.2
     (fun _ _ => rfl)⟩

/-- Counterexample for C2 as stated: `fit` does not reset `costs_`, so after
a second run with requested epoch count `E = 1` (no callback signalling stop)
the cost history has length 2, which is neither the number of epochs this run
completed (1) nor at most `E`. -/
theorem C2_cost_history_counterexample :
    (coefSolver_fit linearSgdSolver_predict dsEx 1 cbTrue
        (coefSolver_fit linearSgdSolver_predict dsEx 1 cbTrue freshEx)).costs_.length = 2 ∧
    ¬(2 ≤ 1) :=
  ⟨rfl, by decide⟩

/-- A dot product against the zero coefficient vector is zero. -/
theorem dotQ_replicate_zero : ∀ (row : List ℚ) (n : ℕ),
    dotQ row (List.replicate n 0) = 0 := by
  intro row
  induction row with
  | nil => intro n; simp [dotQ]
  | cons x xs ih =>
    intro n
    cases n with
    | zero => simp [dotQ]
    | succ n =>
      have h := ih n
      simp only [dotQ, List.replicate_succ, List.zipWith_cons_cons, List.sum_cons] at h ⊢
      rw [h, mul_zero, add_zero]

/-- The zero-parameter solver predicts the zero column on any batch. -/
theorem predictWith_zero (n : ℕ) (X : List (List ℚ)) :
    predictWith (List.replicate n 0) 0 X = X.map (fun _ => 0) := by
  unfold predictWith
  refine List.map_congr_left ?_
  intro row _
  rw [dotQ_replicate_zero, add_zero]

/-- C10: fitting a gradient-descent model with `epochs = 0` completes, marks
the model fitted, and leaves the zero coefficient vector, zero bias and an
empty cost history; a subsequent `predict` therefore succeeds and returns the
all-zero column for the concatenation of the prediction batches. -/
theorem C10_fit_zero_epochs_marks_fitted_with_zero_params
    (loss : List ℚ → List ℚ → ℚ) (lr : ℚ) (ds : DataSet)
    (cb : Root → List ℚ → Bool) (batches : List (List (List ℚ))) :
    (model_fit linearSgdSolver_predict ds 0 cb (freshRoot loss lr)).fitted = true ∧
    (model_fit linearSgdSolver_predict ds 0 cb (freshRoot loss lr)).coefs_
      = some (List.replicate ds.nFeatures 0) ∧
    (model_fit linearSgdSolver_predict ds 0 cb (freshRoot loss lr)).bias_ = some 0 ∧
    (model_fit linearSgdSolver_predict ds 0 cb (freshRoot loss lr)).costs_ = [] ∧
    model_predict linearSgdSolver_predict
        (model_fit linearSgdSolver_predict ds 0 cb (freshRoot loss lr)) batches
      = Except.ok (batches.flatten.map (fun _ => 0)) := by
  refine ⟨rfl, rfl, rfl, rfl, ?_⟩
  show Except.ok ((batches.map (linearSgdSolver_predict _)).flatten) = _
  rw [List.map_flatten]
  congr 1
  refine congrArg List.flatten (List.map_congr_left ?_)
  intro X _
  show predictWith (List.replicate ds.nFeatures 0) 0 X = _
  exact predictWith_zero ds.nFeatures X

/-- C7: `Model.predict` raises `NotFittedError` exactly when the model is
not fitted, and `fit` followed by `predict` never raises `NotFittedError`
(for any solver predict function, dataset, epoch count and callback). -/
theorem C7_predict_raises_not_fitted_iff_unfitted
    (sp : Root → List (List ℚ) → List ℚ) (st : Root)
    (batches : List (List (List ℚ))) :
    (model_predict sp st batches = Except.error ModelError.notFitted ↔ st.fitted = false) ∧
    (∀ (ds : DataSet) (E : ℕ) (cb : Root → List ℚ → Bool)
        (batches2 : List (List (List ℚ))),
      model_predict sp (model_fit sp ds E cb st) batches2
        ≠ Except.error ModelError.notFitted) := by
  constructor
  · cases h : st.fitted <;> simp [model_predict, h]
  · intro ds E cb batches2
    simp [model_predict, model_fit]

/-- Witness for C7: a concrete unfitted model's `predict` fails with
`NotFittedError`, and after a concrete `fit` it does not. -/
theorem C7_predict_not_fitted_witness :
    model_predict linearSgdSolver_predict freshEx [] = Except.error ModelError.notFitted ∧
    model_predict linearSgdSolver_predict
        (model_fit linearSgdSolver_predict dsEx 1 cbTrue freshEx) []
      ≠ Except.error ModelError.notFitted :=
  ⟨(C7_predict_raises_not_fitted_iff_unfitted linearSgdSolver_predict freshEx []).1.mpr rfl,
   (C7_predict_raises_not_fitted_iff_unfitted linearSgdSolver_predict freshEx []).2 dsEx 1 cbTrue []⟩

/-- C3: the `get_params` / `set_params` round trip cannot reconstruct any
state, because `CoefSolver.get_params` returns the value of `dict.update`,
which is `None`: on the concrete fitted model `fittedRootEx` the parameter
bag is `None` and feeding it to `set_params` fails with `AttributeError`
instead of reconstructing the model+solver state. -/
theorem C3_get_params_returns_none_breaking_round_trip :
    coefSolver_get_params fittedRootEx = none ∧
    clone_via_params fittedRootEx
      = Except.error "AttributeError: NoneType object has no attribute items" :=
  ⟨rfl, rfl⟩

/-- C4: `clean_copy` on a `LinearRegression` constructed with the
`LINEAR_SOLVERS` choice `"mbgd"` does not return an unfitted copy — it trips
the constructor's solver assertion, because `clean_copy` passes the solver
name `"sgd"`, which is not in `LINEAR_SOLVERS`; for the `"norm_eq"` choice it
does return a fresh unfitted model with the same hyperparameters and no
coefficients. -/
theorem C4_clean_copy_mbgd_trips_solver_assertion :
    (linearRegression_init "mean_squared_error" "mbgd" (1 / 10000)).bind
        linearRegression_clean_copy
      = Except.error "Solver unrecognised, see models.linear.LINEAR_SOLVERS to see defined one." ∧
    (linearRegression_init "mean_squared_error" "norm_eq" (1 / 10000)).bind
        linearRegression_clean_copy
      = Except.ok
          { fitted := false
            solverIsSgd := false
            lossName := "mean_squared_error"
            learning_rate_ := 1 / 10000
            coefs_ := none
            bias_ := none } :=
  ⟨rfl, rfl⟩

/-- C6: `PerceptronSolver.predict` never completes — evaluating the dtype
argument `np.unit8` raises `AttributeError` for every input batch (here the
concrete batch `[[1]]` with zero coefficients, bias and threshold), instead
of returning the step-function labels the claim describes. -/
theorem C6_perceptron_predict_raises_attribute_error :
    perceptronSolver_predict [0] 0 0 [[1]]
      = Except.error "AttributeError: module numpy has no attribute unit8" := rfl

/-- Sorted-insertion preserves membership up to the inserted element. -/
theorem mem_insUnique (a x : ℤ) : ∀ (l : List ℤ), a ∈ insUnique x l ↔ a = x ∨ a ∈ l := by
  intro l
  induction l with
  | nil => simp [insUnique]
  | cons y ys ih =>
    simp only [insUnique]
    split_ifs with h1 h2
    · simp [List.mem_cons]
    · subst h2
      simp [List.mem_cons]
    · simp only [List.mem_cons, ih]
      tauto

/-- The values `np.unique` reports are exactly the values present. -/
theorem mem_np_unique (a : ℤ) : ∀ (l : List ℤ), a ∈ np_unique l ↔ a ∈ l := by
  intro l
  induction l with
  | nil => simp [np_unique]
  | cons x xs ih =>
    show a ∈ insUnique x (np_unique xs) ↔ _
    rw [mem_insUnique]
    simp [ih, List.mem_cons]

/-- Flattening a single-column target recovers its value list. -/
theorem flatten_singletons : ∀ (t : List ℤ), (t.map (fun x => [x])).flatten = t := by
  intro t
  induction t with
  | nil => rfl
  | cons x xs ih => simp [ih]

/-- C9: the binary classifiers' target validation rejects any single-column
target whose values all lie in `{0, 1}` but in which one of the two labels is
absent: the `list(np.unique(target)) == [0, 1]` assertion fails, so `fit`
fails even though every value is a legal label. -/
theorem C9_binary_fit_rejects_single_label_targets
    (t : List ℤ) (_hvals : ∀ x ∈ t, x = 0 ∨ x = 1) (hmiss : 0 ∉ t ∨ 1 ∉ t) :
    binary_fit_gate (t.map (fun x => [x]))
      = Except.error "Target class must consist only of 0 and 1" := by
  have hA : ∀ row ∈ t.map (fun x => [x]), row.length = 1 := by simp
  have hB : ¬(np_unique (t.map (fun x => [x])).flatten = [0, 1]) := by
    rw [flatten_singletons]
    intro h
    have h0 : (0 : ℤ) ∈ np_unique t := by rw [h]; simp
    have h1 : (1 : ℤ) ∈ np_unique t := by rw [h]; simp
    rw [mem_np_unique] at h0 h1
    rcases hmiss with hm | hm
    · exact hm h0
    · exact hm h1
  simp only [binary_fit_gate]
  rw [if_neg (not_not_intro hA), if_pos hB]

/-- Witness for C9: the all-zeros single-column target `[0, 0, 0]` has all
its values in `{0, 1}`, misses the label 1, and is rejected by the binary
classifiers' fit validation. -/
theorem C9_binary_fit_witness :
    (∀ x ∈ ([0, 0, 0] : List ℤ), x = 0 ∨ x = 1) ∧
    ((0 : ℤ) ∉ ([0, 0, 0] : List ℤ) ∨ (1 : ℤ) ∉ ([0, 0, 0] : List ℤ)) ∧
    binary_fit_gate (([0, 0, 0] : List ℤ).map (fun x => [x]))
      = Except.error "Target class must consist only of 0 and 1" :=
  ⟨by decide, by decide,
   C9_binary_fit_rejects_single_label_targets [0, 0, 0] (by decide) (by decide)⟩

/-- The exact sigmoid lies strictly between 0 and 1, so the `astype("i")`
truncation sends it to 0. -/
theorem astype_int_sigmoid_eq_zero (z : ℝ) :
    astype_int (1 / (1 + Real.exp (-z))) = 0 := by
  have hexp := Real.exp_pos (-z)
  have hpos : (0 : ℝ) < 1 + Real.exp (-z) := by linarith
  have hv0 : (0 : ℝ) < 1 / (1 + Real.exp (-z)) := by positivity
  have hv1 : 1 / (1 + Real.exp (-z)) < 1 := by
    rw [div_lt_one hpos]
    linarith
  unfold astype_int
  rw [if_pos hv0.le, Int.floor_eq_zero_iff]
  exact Set.mem_Ico.mpr ⟨hv0.le, hv1⟩

/-- C5 (amended): `LogisticSgdSolver.predict` casts the sigmoid with
`.astype("i")`, which truncates toward zero rather than rounding; since the
exact sigmoid of every raw score lies strictly inside `(0, 1)`, the predicted
label is 0 for every sample of every batch, not the 0.5-thresholded value
(label 1 could only arise from floating-point saturation of the sigmoid to
exactly 1.0, outside exact-real semantics). -/
theorem C5_logistic_predict_truncates_sigmoid_to_zero
    (coefs : List ℝ) (bias : ℝ) (X : List (List ℝ)) :
    logisticSgdSolver_predict coefs bias X = X.map (fun _ => 0) := by
  unfold logisticSgdSolver_predict
  refine List.map_congr_left ?_
  intro row _
  exact astype_int_sigmoid_eq_zero _

/-- Counterexample for C5 as stated: with coefficient 1, bias 0 and the
sample `[1]`, the raw score is 1 (nonnegative), so the claim demands label 1
(`round(sigmoid 1) = round(0.73...) = 1`), but the code's truncating cast
returns label 0. -/
theorem C5_logistic_predict_counterexample :
    logisticSgdSolver_predict [1] 0 [[1]] = [0] ∧
    claimed_logistic_predict [1] 0 [[1]] = [1] := by
  constructor
  · show [astype_int (1 / (1 + Real.exp (-(dotR [1] [1] + 0))))] = [0]
    rw [astype_int_sigmoid_eq_zero (dotR [1] [1] + 0)]
  · show [if (0 : ℝ) ≤ dotR [1] [1] + 0 then (1 : ℤ) else 0] = [1]
    rw [if_pos]
    have : dotR [1] [1] = 1 := by simp [dotR]
    rw [this]
    norm_num

/-- Invariants of the fold-cutting loop (with enough fuel): the folds
followed by the remainder reassemble the input list, every fold has exactly
`f` elements, and the number of folds is `(length - 1) / f` — the strict
`s + fold_size < len(ds)` loop guard stops one fold short of the boundary, so
for `f ∣ length` this is `length / f - 1` folds, not `length / f`. -/
theorem cvs_go_fuel_spec (f : ℕ) (hf : 0 < f) :
    ∀ (k : ℕ) (l : List ℕ), l.length ≤ k →
      (cvs_go_fuel f k l).1.flatten ++ (cvs_go_fuel f k l).2 = l ∧
      (∀ s ∈ (cvs_go_fuel f k l).1, s.length = f) ∧
      (cvs_go_fuel f k l).1.length = (l.length - 1) / f := by
  intro k
  induction k with
  | zero =>
    intro l hl
    have hnil : l = [] := List.length_eq_zero.mp (Nat.le_zero.mp hl)
    subst hnil
    exact ⟨rfl, by simp [cvs_go_fuel], by simp [cvs_go_fuel]⟩
  | succ k ih =>
    intro l hl
    by_cases h : f < l.length ∧ 0 < f
    · have hdrop : (l.drop f).length ≤ k := by
        rw [List.length_drop]
        omega
      obtain ⟨ih1, ih2, ih3⟩ := ih (l.drop f) hdrop
      simp only [cvs_go_fuel, if_pos h]
      refine ⟨?_, ?_, ?_⟩
      · rw [List.flatten_cons, List.append_assoc, ih1]
        exact List.take_append_drop f l
      · intro s hs
        rcases List.mem_cons.mp hs with hs | hs
        · subst hs
          rw [List.length_take]
          omega
        · exact ih2 s hs
      · rw [List.length_cons, ih3, List.length_drop]
        have h1 : l.length - 1 = (l.length - f - 1) + f := by omega
        rw [h1, Nat.add_div_right _ hf]
    · simp only [cvs_go_fuel, if_neg h]
      refine ⟨rfl, by simp, ?_⟩
      have hlt : l.length - 1 < f := by
        rcases not_and_or.mp h with h1 | h1
        · omega
        · exact absurd hf h1
      simp [Nat.div_eq_of_lt hlt]

/-- Invariants of the fold-cutting loop as run by `cross_val_split`. -/
theorem cvs_go_spec (f : ℕ) (hf : 0 < f) (l : List ℕ) :
    (cvs_go f l).1.flatten ++ (cvs_go f l).2 = l ∧
    (∀ s ∈ (cvs_go f l).1, s.length = f) ∧
    (cvs_go f l).1.length = (l.length - 1) / f :=
  cvs_go_fuel_spec f hf l.length l (Nat.le_refl _)

/-- The folds cover exactly the first `count * f` elements of the index list
and the remainder is the rest. -/
theorem cvs_go_flatten_take (f : ℕ) (hf : 0 < f) (l : List ℕ) :
    (cvs_go f l).1.flatten = l.take ((cvs_go f l).1.length * f) ∧
    (cvs_go f l).2 = l.drop ((cvs_go f l).1.length * f) := by
  obtain ⟨h1, h2, _⟩ := cvs_go_spec f hf l
  have hlen : (cvs_go f l).1.flatten.length = (cvs_go f l).1.length * f := by
    rw [List.length_flatten]
    have hrep : List.map List.length (cvs_go f l).1
        = List.replicate (cvs_go f l).1.length f := by
      refine List.eq_replicate_iff.mpr ⟨List.length_map _ _, ?_⟩
      intro b hb
      rcases List.mem_map.mp hb with ⟨s, hs, hsb⟩
      rw [← hsb]
      exact h2 s hs
    rw [hrep, List.sum_replicate, smul_eq_mul]
  constructor
  · have ht := List.take_left (cvs_go f l).1.flatten (cvs_go f l).2
    rw [h1, hlen] at ht
    exact ht.symm
  · have hd := List.drop_left (cvs_go f l).1.flatten (cvs_go f l).2
    rw [h1, hlen] at hd
    exact hd.symm

/-- C8 (amended): for `2 ≤ k < n`, `cross_val_split` succeeds and returns
pairwise-disjoint duplicate-free index partitions; with `f = n div k` it cuts
`J = (n - 1) div f` full folds of size `f` (which is `k - 1`, not `k`, when
`k` divides `n`, and can exceed `k` otherwise). With `drop_remainder` set the
result is exactly those `J` folds, covering only the first `J * f` indices;
otherwise the always-nonempty remainder partition is appended and the
partitions cover all `n` indices exactly once. -/
theorem C8_cross_val_split_partition_structure (n folds : ℕ) (dropR : Bool)
    (h2 : 2 ≤ folds) (hn : folds < n) :
    ∃ splits, cross_val_split n folds dropR = Except.ok splits ∧
      splits.flatten.Nodup ∧
      List.Pairwise List.Disjoint splits ∧
      (dropR = true →
        splits.length = (n - 1) / (n / folds) ∧
        (∀ s ∈ splits, s.length = n / folds) ∧
        splits.flatten = (List.range n).take ((n - 1) / (n / folds) * (n / folds))) ∧
      (dropR = false →
        splits.length = (n - 1) / (n / folds) + 1 ∧
        splits.flatten = List.range n) := by
  have hfolds : 0 < folds := by omega
  have hf : 0 < n / folds := (Nat.one_le_div_iff hfolds).mpr (by omega)
  obtain ⟨hasm, hsize, hcount⟩ := cvs_go_spec (n / folds) hf (List.range n)
  obtain ⟨htake, hdrop⟩ := cvs_go_flatten_take (n / folds) hf (List.range n)
  have hcount' : (cvs_go (n / folds) (List.range n)).1.length = (n - 1) / (n / folds) := by
    rw [hcount, List.length_range]
  have hsplit : cross_val_split n folds dropR
      = if dropR = false ∧ (cvs_go (n / folds) (List.range n)).2.length ≠ 0 then
          Except.ok ((cvs_go (n / folds) (List.range n)).1
            ++ [(cvs_go (n / folds) (List.range n)).2])
        else Except.ok (cvs_go (n / folds) (List.range n)).1 := by
    simp only [cross_val_split, if_neg (not_not_intro h2), if_neg (not_not_intro hn)]
  have hrest : (cvs_go (n / folds) (List.range n)).2.length ≠ 0 := by
    rw [hdrop, List.length_drop, List.length_range, hcount']
    have hmul : (n - 1) / (n / folds) * (n / folds) ≤ n - 1 := Nat.div_mul_le_self _ _
    omega
  cases dropR with
  | true =>
    refine ⟨(cvs_go (n / folds) (List.range n)).1, ?_, ?_, ?_, ?_, ?_⟩
    · rw [hsplit, if_neg]
      intro hcontra
      exact absurd hcontra.1 (by simp)
    · rw [htake]
      exact (List.take_sublist _ _).nodup (List.nodup_range n)
    · refine (List.nodup_flatten.mp ?_).2
      rw [htake]
      exact (List.take_sublist _ _).nodup (List.nodup_range n)
    · intro _
      refine ⟨hcount', hsize, ?_⟩
      rw [htake, hcount']
    · intro hcontra
      exact absurd hcontra (by simp)
  | false =>
    refine ⟨(cvs_go (n / folds) (List.range n)).1
        ++ [(cvs_go (n / folds) (List.range n)).2], ?_, ?_, ?_, ?_, ?_⟩
    · rw [hsplit, if_pos ⟨rfl, hrest⟩]
    · rw [List.flatten_append]
      simp only [List.flatten_cons, List.flatten_nil, List.append_nil]
      rw [hasm]
      exact List.nodup_range n
    · refine (List.nodup_flatten.mp ?_).2
      rw [List.flatten_append]
      simp only [List.flatten_cons, List.flatten_nil, List.append_nil]
      rw [hasm]
      exact List.nodup_range n
    · intro hcontra
      exact absurd hcontra (by simp)
    · intro _
      refine ⟨?_, ?_⟩
      · rw [List.length_append, hcount']
        rfl
      · rw [List.flatten_append]
        simp only [List.flatten_cons, List.flatten_nil, List.append_nil]
        exact hasm

/-- Witness for C8: at `n = 5`, `folds = 2`, remainder kept, the hypotheses
hold and the amended claim yields `(5-1)/(5/2) + 1 = 3` disjoint partitions
covering all five indices. -/
theorem C8_cross_val_split_witness :
    (2 ≤ 2) ∧ (2 < 5) ∧
    (∃ splits, cross_val_split 5 2 false = Except.ok splits ∧
      splits.flatten.Nodup ∧
      List.Pairwise List.Disjoint splits ∧
      (false = true →
        splits.length = (5 - 1) / (5 / 2) ∧
        (∀ s ∈ splits, s.length = 5 / 2) ∧
        splits.flatten = (List.range 5).take ((5 - 1) / (5 / 2) * (5 / 2))) ∧
      (false = false →
        splits.length = (5 - 1) / (5 / 2) + 1 ∧
        splits.flatten = List.range 5)) :=
  ⟨by decide, by decide,
   C8_cross_val_split_partition_structure 5 2 false (by decide) (by decide)⟩

/-- Counterexample for C8 as stated: for `n = 4`, `folds = 2` with
`drop_remainder` set, the claim demands exactly 2 folds of size 2, but the
strict loop guard yields a single fold `[0, 1]` and the indices 2 and 3 are
dropped entirely. -/
theorem C8_cross_val_split_counterexample :
    cross_val_split 4 2 true = Except.ok [[0, 1]] ∧
    ([[0, 1]] : List (List ℕ)).length ≠ 2 :=
  ⟨rfl, by decide⟩
